import Mathlib

/-!
Shallow embedding of the Phelps medal-dashboard data pipeline.

The repository has two scripts. `src/app.py` loads the medal CSV, filters the
rows to the three real medal ranks, tags each row with an event type, groups
medals by year and rank, and folds the per-year group counts into cumulative
per-rank totals for the stacked chart. `src/data/app.py` is a variant that
sorts the raw table by date and numbers every row with a running medal count.
Tables are embedded as lists of records; pandas group/size/loc-slice/sum jump
to counting and summing over those lists. The time-string parser and the
event-time-series builder described by the design document have no code under
src/, so they are modelled from the spec (see the doc comments below).
-/

namespace Phelps

/-- One row of the medal CSV: columns Year, Event, Medal, Time, Note. -/
structure MedalRow where
  Year : Nat
  Event : String
  Medal : String
  Time : String
  Note : String
deriving DecidableEq

/-- `validMedal m` holds when the Medal field is one of the three real ranks,
the filter applied at src/app.py line 74
(`df['Medal'].isin(['Gold', 'Silver', 'Bronze'])`). -/
def validMedal (m : String) : Bool :=
  m == "Gold" || m == "Silver" || m == "Bronze"

/-- `startsWithChars n h`: the character list `h` begins with `n`. -/
def startsWithChars : List Char → List Char → Bool
  | [], _ => true
  | _ :: _, [] => false
  | a :: as, b :: bs => a == b && startsWithChars as bs

/-- `containsChars n h`: `n` occurs contiguously inside `h` — Python's
substring test `n in h`. -/
def containsChars (needle : List Char) : List Char → Bool
  | [] => needle.isEmpty
  | b :: bs => startsWithChars needle (b :: bs) || containsChars needle bs

/-- The relay test of src/app.py line 78: `'Relay' in x` (case-sensitive). -/
def containsRelay (e : String) : Bool :=
  containsChars "Relay".toList e.toList

/-- The event-type tag of src/app.py lines 77-79:
`'Team (Relay)' if 'Relay' in x else 'Individual'`. -/
def event_type (e : String) : String :=
  if containsRelay e then "Team (Relay)" else "Individual"

/-- A loaded row after preparation: the original columns plus `Event_Type`. -/
structure PrepRow where
  Year : Nat
  Event : String
  Medal : String
  Time : String
  Note : String
  Event_Type : String
deriving DecidableEq

/-- `load_and_prep_data` of src/app.py lines 69-81: keep only rows whose
Medal field is a real rank, then tag each with its event type. -/
def load_and_prep_data (t : List MedalRow) : List PrepRow :=
  (t.filter fun r => validMedal r.Medal).map fun r =>
    ⟨r.Year, r.Event, r.Medal, r.Time, r.Note, event_type r.Event⟩

/-- The per-(year, rank) group size of src/app.py line 88
(`df.groupby(['Year', 'Medal']).size()`). -/
def medalCount (t : List PrepRow) (y : Nat) (m : String) : Nat :=
  t.countP fun r => r.Year == y && r.Medal == m

/-- The whole-table count of one rank. -/
def totalMedal (t : List PrepRow) (m : String) : Nat :=
  t.countP fun r => r.Medal == m

/-- `sorted(df['Year'].unique())` of src/app.py line 92, which is also the
(sorted) index of the grouped table of line 88. -/
def sortedYears (t : List PrepRow) : List Nat :=
  List.insertionSort (· ≤ ·) ((t.map fun r => r.Year).dedup)

/-- `medal_counts.loc[:year].sum()` of src/app.py line 96: the per-rank sum of
the grouped counts over all group years at most `y` (the `.loc` slice is
inclusive of its endpoint). -/
def cumulativeCount (t : List PrepRow) (y : Nat) (m : String) : Nat :=
  (((sortedYears t).filter fun z => decide (z ≤ y)).map fun z => medalCount t z m).sum

/-- One animation frame of src/app.py lines 97-102: a year with the
cumulative per-rank totals emitted at that year. -/
structure Frame where
  Year : Nat
  Gold : Nat
  Silver : Nat
  Bronze : Nat
deriving DecidableEq

/-- The frame list of src/app.py lines 94-104: one frame per sorted year,
holding the inclusive cumulative totals for Gold, Silver and Bronze. -/
def cumulativeFrames (t : List PrepRow) : List Frame :=
  (sortedYears t).map fun y =>
    ⟨y, cumulativeCount t y "Gold", cumulativeCount t y "Silver",
      cumulativeCount t y "Bronze"⟩

/-- The two error kinds of the design: a missing data source and a malformed
time string. `DataNotFound` models the `FileNotFoundError` that
`pd.read_csv` raises and src/app.py line 321 catches. -/
inductive LoadError where
  | DataNotFound : LoadError
  | MalformedTime : LoadError
deriving DecidableEq

/-- Value of a decimal digit character. -/
def digitVal (c : Char) : Nat := c.toNat - '0'.toNat

/-- Read a nonempty all-digit character list as a natural number; any other
list is rejected. -/
def digitsToNat (l : List Char) : Option Nat :=
  if !l.isEmpty && l.all Char.isDigit then
    some (l.foldl (fun a c => a * 10 + digitVal c) 0)
  else none

/-- Split a character list at every occurrence of `sep`; the result always
has at least one part. -/
def splitOnChar (sep : Char) : List Char → List (List Char)
  | [] => [[]]
  | c :: cs =>
    if c == sep then [] :: splitOnChar sep cs
    else
      match splitOnChar sep cs with
      | [] => [[c]]
      | p :: ps => (c :: p) :: ps

/-- Read `DD` or `DD.DD` as an exact rational number of seconds; anything
else is rejected. -/
def parseDecimal (l : List Char) : Option ℚ :=
  match splitOnChar '.' l with
  | [d] => (digitsToNat d).map fun n => (n : ℚ)
  | [d, f] =>
    match digitsToNat d, digitsToNat f with
    | some n, some fr => some ((n : ℚ) + (fr : ℚ) / (10 : ℚ) ^ f.length)
    | _, _ => none
  | _ => none

/-- Modelled from the spec: the time-string parser of §4.4 has no code under
src/ (none of the scripts parses the Time column). Per the spec it accepts
`SS.ss` (or a plain integer seconds string) and `MM:SS.ss`, returns
minutes×60 + seconds, and fails with the `MalformedTime` kind on non-numeric
components or an unparsable colon position (no hours component). Seconds are
exact rationals. -/
def parseTime (s : String) : Except LoadError ℚ :=
  match splitOnChar ':' s.toList with
  | [sec] =>
    match parseDecimal sec with
    | some v => .ok v
    | none => .error .MalformedTime
  | [mins, sec] =>
    match digitsToNat mins, parseDecimal sec with
    | some m, some v => .ok ((m : ℚ) * 60 + v)
    | _, _ => .error .MalformedTime
  | _ => .error .MalformedTime

instance {ε α : Type} [DecidableEq ε] [DecidableEq α] : DecidableEq (Except ε α)
  | .ok a, .ok b =>
    if h : a = b then isTrue (by rw [h]) else isFalse (by intro hh; cases hh; exact h rfl)
  | .ok _, .error _ => isFalse (by intro h; cases h)
  | .error _, .ok _ => isFalse (by intro h; cases h)
  | .error e, .error f =>
    if h : e = f then isTrue (by rw [h]) else isFalse (by intro hh; cases hh; exact h rfl)

example : parseTime "1:52.03" = .ok ((11203 : ℚ) / 100) := by
  have h : parseTime "1:52.03"
      = .ok (((1 : Nat) : ℚ) * 60
          + (((52 : Nat) : ℚ) + ((3 : Nat) : ℚ) / (10 : ℚ) ^ (2 : Nat))) := rfl
  rw [h]; norm_num

example : parseTime "50.58" = .ok ((5058 : ℚ) / 100) := by
  have h : parseTime "50.58"
      = .ok (((50 : Nat) : ℚ) + ((58 : Nat) : ℚ) / (10 : ℚ) ^ (2 : Nat)) := rfl
  rw [h]; norm_num

example : parseTime "abc" = .error .MalformedTime := rfl
example : parseTime "1:2:3.0" = .error .MalformedTime := rfl
example : parseTime "45" = .ok (((45 : Nat) : ℚ)) := rfl

/-- Modelled from the spec: the set of known Games years (§3, "one of a small
fixed set, e.g. {2000, 2004, 2008, 2012, 2016}"); no script under src/
declares such a set. -/
def knownGamesYears : List Nat := [2000, 2004, 2008, 2012, 2016]

/-- One point of an event time series: the Games year, the parsed seconds
value, and the original time string. -/
structure TimePoint where
  Year : Nat
  seconds : ℚ
  original : String
deriving DecidableEq

/-- Order on time points by Games year. -/
def tpLe (a b : TimePoint) : Prop := a.Year ≤ b.Year

instance : DecidableRel tpLe := fun a b => Nat.decLe a.Year b.Year

instance : IsTotal TimePoint tpLe := ⟨fun a b => Nat.le_total a.Year b.Year⟩

instance : IsTrans TimePoint tpLe := ⟨fun _ _ _ h h' => Nat.le_trans h h'⟩

/-- Modelled from the spec: the event time-series builder of §4.5 has no code
under src/. Per the spec it takes all records (not just medal rows), filters
by event name, parses time via the §4.4 parser, and sorts ascending by year.
Rows whose time string fails to parse contribute no point. -/
def eventTimeSeries (t : List MedalRow) (ev : String) : List TimePoint :=
  List.insertionSort tpLe
    ((t.filter fun r => r.Event == ev).filterMap fun r =>
      (parseTime r.Time).toOption.map fun s => ⟨r.Year, s, r.Time⟩)

/-- The histogram input of src/app.py line 207: the occurrence counts of the
two event types (`df['Event_Type'].value_counts()`). -/
def eventTypeCounts (t : List PrepRow) : Nat × Nat :=
  (t.countP fun r => r.Event_Type == "Individual",
   t.countP fun r => r.Event_Type == "Team (Relay)")

/-- One item the `main` of src/app.py renders from the pipeline: the stacked
chart, the histogram, the data table, or the error message. -/
inductive RenderItem where
  | stackedChart : List Frame → RenderItem
  | histogram : Nat × Nat → RenderItem
  | dataTable : List PrepRow → RenderItem
  | errorMsg : String → RenderItem
deriving DecidableEq

/-- The user-visible message of src/app.py line 322. -/
def fileMissingMsg : String :=
  "Could not find mp_olympics_medals_data.csv. Please ensure it is in the same folder as this script."

/-- The `pd.read_csv` call of src/app.py line 71: a missing source file
(`none`) raises `FileNotFoundError`, embedded as the `DataNotFound` kind;
a present file yields its table. -/
def loadData : Option (List MedalRow) → Except LoadError (List MedalRow)
  | none => .error .DataNotFound
  | some t => .ok t

/-- Everything `main` (src/app.py lines 282-310) derives from a loaded table:
the cumulative stacked chart, the event-type histogram, and the data table. -/
def renderPipeline (t : List MedalRow) : List RenderItem :=
  [.stackedChart (cumulativeFrames (load_and_prep_data t)),
   .histogram (eventTypeCounts (load_and_prep_data t)),
   .dataTable (load_and_prep_data t)]

/-- The `try`/`except FileNotFoundError` of src/app.py lines 282-322: a
`DataNotFound` failure is caught and replaced by the error message alone;
any other exception propagates past `main`; a loaded table is rendered. -/
def mainRender (src : Option (List MedalRow)) : Except LoadError (List RenderItem) :=
  match loadData src with
  | .ok t => .ok (renderPipeline t)
  | .error .DataNotFound => .ok [.errorMsg fileMissingMsg]
  | .error e => .error e

/-- The full derivation pipeline of the spec's §6 contract:
load-prep, aggregate, cumulative fold, and time-series derivation. -/
def pipeline (t : List MedalRow) (ev : String) : List RenderItem × List TimePoint :=
  (renderPipeline t, eventTimeSeries t ev)

/-- A date of the src/data/app.py variant: a Games year plus a day index
inside the year (`pd.to_datetime` values, compared chronologically). -/
structure OlympDate where
  y : Nat
  d : Nat
deriving DecidableEq

/-- Chronological order on dates: earlier year, or same year and an
earlier-or-equal day. -/
def dateLe (a b : OlympDate) : Prop :=
  a.y < b.y ∨ (a.y = b.y ∧ a.d ≤ b.d)

instance : DecidableRel dateLe := fun a b =>
  inferInstanceAs (Decidable (a.y < b.y ∨ (a.y = b.y ∧ a.d ≤ b.d)))

instance : IsTotal OlympDate dateLe := by
  constructor
  intro a b
  rcases Nat.lt_trichotomy a.y b.y with h | h | h
  · exact Or.inl (Or.inl h)
  · rcases Nat.le_total a.d b.d with hd | hd
    · exact Or.inl (Or.inr ⟨h, hd⟩)
    · exact Or.inr (Or.inr ⟨h.symm, hd⟩)
  · exact Or.inr (Or.inl h)

instance : IsTrans OlympDate dateLe := by
  constructor
  intro a b c hab hbc
  rcases hab with h1 | ⟨h1, h1d⟩
  · rcases hbc with h2 | ⟨h2, _⟩
    · exact Or.inl (Nat.lt_trans h1 h2)
    · exact Or.inl (h2 ▸ h1)
  · rcases hbc with h2 | ⟨h2, h2d⟩
    · exact Or.inl (h1 ▸ h2)
    · exact Or.inr ⟨h1.trans h2, Nat.le_trans h1d h2d⟩

/-- One row of the src/data/app.py CSV: columns Date, Event, Medal. -/
structure RawRow2 where
  Date : OlympDate
  Event : String
  Medal : String
deriving DecidableEq

/-- A prepared row of the src/data/app.py variant: the original columns plus
the extracted `Year` and the running `Medal_Count`. -/
structure PrepRow2 where
  Date : OlympDate
  Event : String
  Medal : String
  Year : Nat
  Medal_Count : Nat
deriving DecidableEq

/-- Chronological order lifted to raw rows. -/
def rowDateLe (a b : RawRow2) : Prop := dateLe a.Date b.Date

instance : DecidableRel rowDateLe := fun a b =>
  inferInstanceAs (Decidable (dateLe a.Date b.Date))

instance : IsTotal RawRow2 rowDateLe :=
  ⟨fun a b => IsTotal.total (r := dateLe) a.Date b.Date⟩

instance : IsTrans RawRow2 rowDateLe :=
  ⟨fun _ _ _ h h' => Trans.trans (r := dateLe) (s := dateLe) h h'⟩

/-- `load_and_prep_data` of src/data/app.py lines 6-20: sort the table
chronologically by Date, extract `Year` from the date, and number every row
with `Medal_Count = 1, 2, ...` (`range(1, len(df) + 1)`), with no filtering
of any kind. -/
def load_and_prep_data2 (t : List RawRow2) : List PrepRow2 :=
  (List.insertionSort rowDateLe t).enum.map fun p =>
    ⟨p.2.Date, p.2.Event, p.2.Medal, p.2.Date.y, p.1 + 1⟩

/-! ### Substring characterization -/

theorem startsWithChars_iff (n h : List Char) :
    startsWithChars n h = true ↔ ∃ rest, h = n ++ rest := by
  induction n generalizing h with
  | nil => simp [startsWithChars]
  | cons a as ih =>
    cases h with
    | nil => simp [startsWithChars]
    | cons b bs =>
      simp only [startsWithChars, Bool.and_eq_true, beq_iff_eq, ih, List.cons_append,
        List.cons.injEq]
      constructor
      · rintro ⟨hab, rest, hrest⟩
        exact ⟨rest, hab.symm, hrest⟩
      · rintro ⟨rest, hba, hrest⟩
        exact ⟨hba.symm, rest, hrest⟩

theorem containsChars_iff (n h : List Char) :
    containsChars n h = true ↔ ∃ pre post, h = pre ++ (n ++ post) := by
  induction h with
  | nil =>
    simp only [containsChars, List.isEmpty_iff]
    constructor
    · intro hn
      exact ⟨[], [], by simp [hn]⟩
    · rintro ⟨pre, post, hp⟩
      rcases List.append_eq_nil.mp hp.symm with ⟨-, h2⟩
      rcases List.append_eq_nil.mp h2 with ⟨h3, -⟩
      exact h3
  | cons b bs ih =>
    simp only [containsChars, Bool.or_eq_true, startsWithChars_iff, ih]
    constructor
    · rintro (⟨rest, hr⟩ | ⟨pre, post, hp⟩)
      · exact ⟨[], rest, by simpa using hr⟩
      · exact ⟨b :: pre, post, by simp [hp]⟩
    · rintro ⟨pre, post, hp⟩
      cases pre with
      | nil => exact Or.inl ⟨post, by simpa using hp⟩
      | cons c cs =>
        simp only [List.cons_append, List.cons.injEq] at hp
        exact Or.inr ⟨cs, post, hp.2⟩

/-- A small table used to instantiate the theorems on concrete data. -/
def c4Table : List MedalRow :=
  [⟨2008, "Men 4x100 Medley Relay", "Gold", "3:29.34", "WR"⟩,
   ⟨2008, "Men 200 Butterfly", "Gold", "1:52.03", "WR"⟩]

/-- C4: for every loaded record, the event_type tag equals "Team (Relay)"
exactly when the event name contains the substring "Relay" (case-sensitive),
and "Individual" otherwise. -/
theorem C4_event_type_tagging (t : List MedalRow) (pr : PrepRow)
    (hpr : pr ∈ load_and_prep_data t) :
    (containsRelay pr.Event = true → pr.Event_Type = "Team (Relay)")
    ∧ (containsRelay pr.Event = false → pr.Event_Type = "Individual")
    ∧ (containsRelay pr.Event = true
        ↔ ∃ pre post, pr.Event.toList = pre ++ ("Relay".toList ++ post)) := by
  obtain ⟨r, -, hr⟩ := List.mem_map.mp hpr
  cases hr
  refine ⟨?_, ?_, containsChars_iff _ _⟩
  · intro h
    simp [event_type, h]
  · intro h
    simp [event_type, h]

/-- Witness for C4: on the concrete table, "Men 4x100 Medley Relay" tags as
"Team (Relay)" and "Men 200 Butterfly" tags as "Individual". -/
theorem C4_witness :
    (load_and_prep_data c4Table).map (fun p => p.Event_Type)
      = ["Team (Relay)", "Individual"] := by
  have h1 := (C4_event_type_tagging c4Table
    ⟨2008, "Men 4x100 Medley Relay", "Gold", "3:29.34", "WR", "Team (Relay)"⟩
    (by decide)).1 (by decide)
  have h2 := (C4_event_type_tagging c4Table
    ⟨2008, "Men 200 Butterfly", "Gold", "1:52.03", "WR", "Individual"⟩
    (by decide)).2.1 (by decide)
  decide

/-! ### Time-parser lemmas -/

/-- The numeric value of a digit string (the fold inside `digitsToNat`). -/
def digitsVal (l : List Char) : Nat :=
  l.foldl (fun a c => a * 10 + digitVal c) 0

theorem digitsToNat_eq_some (l : List Char) (h1 : l ≠ [])
    (h2 : ∀ c ∈ l, c.isDigit = true) :
    digitsToNat l = some (digitsVal l) := by
  unfold digitsToNat digitsVal
  rw [if_pos]
  rw [Bool.and_eq_true]
  constructor
  · cases l with
    | nil => exact absurd rfl h1
    | cons a as => rfl
  · exact List.all_eq_true.mpr h2

theorem splitOnChar_of_not_mem (sep : Char) (l : List Char) (h : sep ∉ l) :
    splitOnChar sep l = [l] := by
  induction l with
  | nil => rfl
  | cons c cs ih =>
    have hc : ¬((c == sep) = true) := by
      simp only [beq_iff_eq]
      rintro rfl
      exact h (List.mem_cons_self _ _)
    rw [splitOnChar, if_neg hc, ih fun hm => h (List.mem_cons_of_mem _ hm)]

theorem splitOnChar_append (sep : Char) (l rest : List Char) (h : sep ∉ l) :
    splitOnChar sep (l ++ sep :: rest) = l :: splitOnChar sep rest := by
  induction l with
  | nil =>
    simp [splitOnChar]
  | cons c cs ih =>
    have hc : ¬((c == sep) = true) := by
      simp only [beq_iff_eq]
      rintro rfl
      exact h (List.mem_cons_self _ _)
    rw [List.cons_append, splitOnChar, if_neg hc,
      ih fun hm => h (List.mem_cons_of_mem _ hm)]

/-- C5: the time-string parser returns minutes×60 + seconds for `MM:SS.ss`
and the literal decimal value for `SS.ss`; in particular
parse "1:52.03" = 112.03 and parse "50.58" = 50.58. -/
theorem C5_parse_well_formed (m d f : List Char)
    (hm : m ≠ []) (hmd : ∀ c ∈ m, c.isDigit = true)
    (hd : d ≠ []) (hdd : ∀ c ∈ d, c.isDigit = true)
    (hf : f ≠ []) (hfd : ∀ c ∈ f, c.isDigit = true) :
    parseTime (String.mk (m ++ ':' :: (d ++ '.' :: f)))
      = .ok ((digitsVal m : ℚ) * 60
          + ((digitsVal d : ℚ) + (digitsVal f : ℚ) / (10 : ℚ) ^ f.length))
    ∧ parseTime (String.mk (d ++ '.' :: f))
      = .ok ((digitsVal d : ℚ) + (digitsVal f : ℚ) / (10 : ℚ) ^ f.length)
    ∧ parseTime "1:52.03" = .ok ((11203 : ℚ) / 100)
    ∧ parseTime "50.58" = .ok ((5058 : ℚ) / 100) := by
  have hdigit : ∀ (x : List Char), (∀ c ∈ x, c.isDigit = true) →
      ∀ (s : Char), s.isDigit = false → s ∉ x := by
    intro x hx s hs hmem
    rw [hx s hmem] at hs
    cases hs
  have hcm : ':' ∉ m := hdigit m hmd ':' (by decide)
  have hcd : ':' ∉ d := hdigit d hdd ':' (by decide)
  have hcf : ':' ∉ f := hdigit f hfd ':' (by decide)
  have hpd : '.' ∉ d := hdigit d hdd '.' (by decide)
  have hpf : '.' ∉ f := hdigit f hfd '.' (by decide)
  have hscolon : ':' ∉ d ++ '.' :: f := by
    intro hmem
    rcases List.mem_append.mp hmem with h | h
    · exact hcd h
    · rcases List.mem_cons.mp h with h | h
      · cases h
      · exact hcf h
  have hdec : parseDecimal (d ++ '.' :: f)
      = some ((digitsVal d : ℚ) + (digitsVal f : ℚ) / (10 : ℚ) ^ f.length) := by
    unfold parseDecimal
    rw [splitOnChar_append '.' d f hpd, splitOnChar_of_not_mem '.' f hpf]
    simp [digitsToNat_eq_some d hd hdd, digitsToNat_eq_some f hf hfd]
  refine ⟨?_, ?_, ?_, ?_⟩
  · unfold parseTime
    rw [show (String.mk (m ++ ':' :: (d ++ '.' :: f))).toList
        = m ++ ':' :: (d ++ '.' :: f) from rfl]
    rw [splitOnChar_append ':' m _ hcm, splitOnChar_of_not_mem ':' _ hscolon]
    simp [digitsToNat_eq_some m hm hmd, hdec]
  · unfold parseTime
    rw [show (String.mk (d ++ '.' :: f)).toList = d ++ '.' :: f from rfl]
    rw [splitOnChar_of_not_mem ':' _ hscolon]
    simp [hdec]
  · have h : parseTime "1:52.03"
        = .ok (((1 : Nat) : ℚ) * 60
            + (((52 : Nat) : ℚ) + ((3 : Nat) : ℚ) / (10 : ℚ) ^ (2 : Nat))) := rfl
    rw [h]
    norm_num
  · have h : parseTime "50.58"
        = .ok (((50 : Nat) : ℚ) + ((58 : Nat) : ℚ) / (10 : ℚ) ^ (2 : Nat)) := rfl
    rw [h]
    norm_num

/-- Witness for C5 at "1:52.03" decomposed into its digit components. -/
theorem C5_witness :
    parseTime (String.mk (['1'] ++ ':' :: (['5', '2'] ++ '.' :: ['0', '3'])))
      = .ok ((digitsVal ['1'] : ℚ) * 60
          + ((digitsVal ['5', '2'] : ℚ)
            + (digitsVal ['0', '3'] : ℚ) / (10 : ℚ) ^ (['0', '3'].length))) :=
  (C5_parse_well_formed ['1'] ['5', '2'] ['0', '3'] (by decide) (by decide)
    (by decide) (by decide) (by decide) (by decide)).1

theorem splitOnChar_ne_nil (sep : Char) (l : List Char) : splitOnChar sep l ≠ [] := by
  cases l with
  | nil => simp [splitOnChar]
  | cons c cs =>
    rw [splitOnChar]
    by_cases h : (c == sep) = true
    · rw [if_pos h]
      simp
    · rw [if_neg h]
      cases hs : splitOnChar sep cs <;> simp

theorem exists_part_splitOnChar (sep : Char) :
    ∀ (l : List Char), ∀ c ∈ l, c ≠ sep → ∃ p ∈ splitOnChar sep l, c ∈ p := by
  intro l
  induction l with
  | nil =>
    intro c hc
    cases hc
  | cons a as ih =>
    intro c hc hne
    rw [splitOnChar]
    by_cases ha : (a == sep) = true
    · rw [if_pos ha]
      rcases List.mem_cons.mp hc with rfl | hc'
      · exact absurd (by simpa using ha) hne
      · obtain ⟨p, hp, hcp⟩ := ih c hc' hne
        exact ⟨p, List.mem_cons_of_mem _ hp, hcp⟩
    · rw [if_neg ha]
      cases hs : splitOnChar sep as with
      | nil => exact absurd hs (splitOnChar_ne_nil sep as)
      | cons q qs =>
        rcases List.mem_cons.mp hc with rfl | hc'
        · exact ⟨c :: q, List.mem_cons_self _ _, List.mem_cons_self _ _⟩
        · obtain ⟨p, hp, hcp⟩ := ih c hc' hne
          rw [hs] at hp
          rcases List.mem_cons.mp hp with rfl | hp'
          · exact ⟨a :: p, List.mem_cons_self _ _, List.mem_cons_of_mem _ hcp⟩
          · exact ⟨p, List.mem_cons_of_mem _ hp', hcp⟩

theorem digitsToNat_eq_none (l : List Char) (c : Char) (hc : c ∈ l)
    (hd : c.isDigit = false) : digitsToNat l = none := by
  unfold digitsToNat
  rw [if_neg]
  intro h
  rw [Bool.and_eq_true] at h
  have := List.all_eq_true.mp h.2 c hc
  rw [hd] at this
  cases this

theorem parseDecimal_eq_none (l : List Char) (c : Char) (hc : c ∈ l)
    (hd : c.isDigit = false) (hdot : c ≠ '.') : parseDecimal l = none := by
  obtain ⟨p, hp, hcp⟩ := exists_part_splitOnChar '.' l c hc hdot
  unfold parseDecimal
  cases hs : splitOnChar '.' l with
  | nil => rfl
  | cons q qs =>
    rw [hs] at hp
    cases qs with
    | nil =>
      rcases List.mem_cons.mp hp with rfl | h'
      · simp [digitsToNat_eq_none p c hcp hd]
      · cases h'
    | cons q2 qs2 =>
      cases qs2 with
      | nil =>
        rcases List.mem_cons.mp hp with rfl | h'
        · cases hq : digitsToNat q2 <;>
            simp [digitsToNat_eq_none p c hcp hd, hq]
        · rcases List.mem_cons.mp h' with rfl | h''
          · cases hq : digitsToNat q <;>
              simp [digitsToNat_eq_none p c hcp hd, hq]
          · cases h''
      | cons _ _ => rfl

theorem parseTime_error_of_bad_char (s : String) (c : Char) (hc : c ∈ s.toList)
    (hd : c.isDigit = false) (hdot : c ≠ '.') (hcolon : c ≠ ':') :
    parseTime s = .error .MalformedTime := by
  obtain ⟨p, hp, hcp⟩ := exists_part_splitOnChar ':' s.toList c hc hcolon
  unfold parseTime
  cases hs : splitOnChar ':' s.toList with
  | nil => rfl
  | cons q qs =>
    rw [hs] at hp
    cases qs with
    | nil =>
      rcases List.mem_cons.mp hp with rfl | h'
      · simp [parseDecimal_eq_none p c hcp hd hdot]
      · cases h'
    | cons q2 qs2 =>
      cases qs2 with
      | nil =>
        rcases List.mem_cons.mp hp with rfl | h'
        · cases hq : parseDecimal q2 <;>
            simp [digitsToNat_eq_none p c hcp hd, hq]
        · rcases List.mem_cons.mp h' with rfl | h''
          · cases hq : digitsToNat q <;>
              simp [parseDecimal_eq_none p c hcp hd hdot, hq]
          · cases h''
      | cons _ _ => rfl

theorem splitOnChar_length (sep : Char) (l : List Char) :
    (splitOnChar sep l).length = l.count sep + 1 := by
  induction l with
  | nil => simp [splitOnChar]
  | cons a as ih =>
    rw [splitOnChar]
    by_cases ha : (a == sep) = true
    · rw [if_pos ha, List.length_cons, ih]
      simp [List.count_cons, ha]
    · rw [if_neg ha]
      cases hs : splitOnChar sep as with
      | nil => exact absurd hs (splitOnChar_ne_nil sep as)
      | cons q qs =>
        have hq : ((a :: q) :: qs).length = (q :: qs).length := by simp
        rw [hq, ← hs, ih]
        simp [List.count_cons, ha]

/-- C6: the parser fails with MalformedTime on any input containing a
character that is neither a digit, a decimal point, nor the single colon
separator, and on any input with two or more colons (no hours component);
it rejects "abc" and "1:2:3.0", while a plain integer seconds string is
accepted. -/
theorem C6_parse_rejects_malformed :
    (∀ (s : String) (c : Char), c ∈ s.toList → c.isDigit = false → c ≠ '.' → c ≠ ':' →
      parseTime s = .error .MalformedTime)
    ∧ (∀ s : String, 2 ≤ s.toList.count ':' → parseTime s = .error .MalformedTime)
    ∧ parseTime "abc" = .error .MalformedTime
    ∧ parseTime "1:2:3.0" = .error .MalformedTime
    ∧ (∀ d : List Char, d ≠ [] → (∀ c ∈ d, c.isDigit = true) →
        parseTime (String.mk d) = .ok ((digitsVal d : ℚ))) := by
  refine ⟨parseTime_error_of_bad_char, ?_, rfl, rfl, ?_⟩
  · intro s hcount
    have hlen : 3 ≤ (splitOnChar ':' s.toList).length := by
      rw [splitOnChar_length]
      omega
    unfold parseTime
    cases hs : splitOnChar ':' s.toList with
    | nil => rfl
    | cons q qs =>
      cases qs with
      | nil =>
        rw [hs] at hlen
        simp at hlen
      | cons q2 qs2 =>
        cases qs2 with
        | nil =>
          rw [hs] at hlen
          simp at hlen
        | cons _ _ => rfl
  · intro d hne hdig
    have hnc : ':' ∉ d := by
      intro hmem
      exact absurd (hdig ':' hmem) (by decide)
    have hpd : '.' ∉ d := by
      intro hmem
      exact absurd (hdig '.' hmem) (by decide)
    have hdec : parseDecimal d = some ((digitsVal d : ℚ)) := by
      unfold parseDecimal
      rw [splitOnChar_of_not_mem '.' d hpd]
      simp [digitsToNat_eq_some d hne hdig]
    unfold parseTime
    rw [show (String.mk d).toList = d from rfl, splitOnChar_of_not_mem ':' d hnc]
    simp [hdec]

/-- Witness for C6: "x9" contains the non-numeric character x and is
rejected; the plain integer string "45" is accepted. -/
theorem C6_witness :
    parseTime "x9" = .error .MalformedTime
    ∧ parseTime (String.mk ['4', '5']) = .ok ((digitsVal ['4', '5'] : ℚ)) :=
  ⟨C6_parse_rejects_malformed.1 "x9" 'x' (by decide) (by decide) (by decide) (by decide),
   C6_parse_rejects_malformed.2.2.2.2 ['4', '5'] (by decide) (by decide)⟩

/-! ### Aggregation lemmas -/

theorem nodup_sortedYears (t : List PrepRow) : (sortedYears t).Nodup :=
  ((List.perm_insertionSort _ _).nodup_iff).mpr (List.nodup_dedup _)

theorem sorted_sortedYears (t : List PrepRow) :
    List.Sorted (· ≤ ·) (sortedYears t) :=
  List.sorted_insertionSort _ _

theorem mem_sortedYears (t : List PrepRow) (r : PrepRow) (hr : r ∈ t) :
    r.Year ∈ sortedYears t :=
  ((List.perm_insertionSort _ _).mem_iff).mpr
    (List.mem_dedup.mpr (List.mem_map_of_mem _ hr))

theorem sum_map_add_distrib {α : Type} (l : List α) (f g : α → Nat) :
    (l.map fun x => f x + g x).sum = (l.map f).sum + (l.map g).sum := by
  induction l with
  | nil => rfl
  | cons a as ih =>
    simp only [List.map_cons, List.sum_cons, ih]
    omega

theorem sum_map_indicator (ys : List Nat) (a : Nat) (hnd : ys.Nodup) (ha : a ∈ ys) :
    (ys.map fun y => if a = y then 1 else 0).sum = 1 := by
  induction ys with
  | nil => cases ha
  | cons b bs ih =>
    rcases List.mem_cons.mp ha with rfl | ha'
    · have hnotin : a ∉ bs := (List.nodup_cons.mp hnd).1
      have hz : (bs.map fun y => if a = y then 1 else 0).sum = 0 := by
        apply List.sum_eq_zero
        intro x hx
        obtain ⟨y, hy, hxy⟩ := List.mem_map.mp hx
        rw [← hxy, if_neg]
        rintro rfl
        exact hnotin hy
      rw [List.map_cons, List.sum_cons, if_pos rfl, hz]
    · have hb : a ≠ b := by
        rintro rfl
        exact (List.nodup_cons.mp hnd).1 ha'
      simp only [List.map_cons, List.sum_cons, if_neg hb]
      rw [ih (List.nodup_cons.mp hnd).2 ha']

theorem sum_medalCount_eq_totalMedal (t : List PrepRow) (ys : List Nat) (m : String)
    (hnd : ys.Nodup) (hcov : ∀ r ∈ t, r.Year ∈ ys) :
    (ys.map fun y => medalCount t y m).sum = totalMedal t m := by
  induction t with
  | nil =>
    simp [medalCount, totalMedal]
  | cons r rs ih =>
    have hcov' : ∀ x ∈ rs, x.Year ∈ ys := fun x hx => hcov x (List.mem_cons_of_mem _ hx)
    have hryear : r.Year ∈ ys := hcov r (List.mem_cons_self _ _)
    have hm : ∀ y, medalCount (r :: rs) y m
        = medalCount rs y m + (if (r.Year == y && r.Medal == m) = true then 1 else 0) := by
      intro y
      simp [medalCount, List.countP_cons]
    have ht : totalMedal (r :: rs) m
        = totalMedal rs m + (if (r.Medal == m) = true then 1 else 0) := by
      simp [totalMedal, List.countP_cons]
    calc (ys.map fun y => medalCount (r :: rs) y m).sum
        = (ys.map fun y => medalCount rs y m
            + (if (r.Year == y && r.Medal == m) = true then 1 else 0)).sum := by
          rw [List.map_congr_left fun y _ => hm y]
      _ = (ys.map fun y => medalCount rs y m).sum
            + (ys.map fun y => if (r.Year == y && r.Medal == m) = true then 1 else 0).sum :=
          sum_map_add_distrib _ _ _
      _ = totalMedal rs m + (if (r.Medal == m) = true then 1 else 0) := by
          rw [ih hcov']
          congr 1
          by_cases hmm : (r.Medal == m) = true
          · have he : (ys.map fun y => if (r.Year == y && r.Medal == m) = true then 1 else 0)
                = ys.map fun y => if r.Year = y then 1 else 0 := by
              apply List.map_congr_left
              intro y _
              rw [hmm, Bool.and_true]
              simp [beq_iff_eq]
            rw [he, sum_map_indicator ys r.Year hnd hryear, if_pos hmm]
          · have he : (ys.map fun y => if (r.Year == y && r.Medal == m) = true then 1 else 0)
                = ys.map fun _ => 0 := by
              apply List.map_congr_left
              intro y _
              rw [Bool.eq_false_iff.mpr hmm, Bool.and_false]
              rfl
            rw [he, if_neg hmm]
            apply List.sum_eq_zero
            intro x hx
            obtain ⟨y, -, hxy⟩ := List.mem_map.mp hx
            exact hxy.symm
      _ = totalMedal (r :: rs) m := ht.symm

theorem sum_filter_le_eq (ys : List Nat) (y : Nat) (f : Nat → Nat)
    (hnd : ys.Nodup) (hy : y ∈ ys) :
    ((ys.filter fun z => decide (z ≤ y)).map f).sum
      = ((ys.filter fun z => decide (z < y)).map f).sum + f y := by
  induction ys with
  | nil => cases hy
  | cons b bs ih =>
    have hnd' := (List.nodup_cons.mp hnd).2
    rcases List.mem_cons.mp hy with rfl | hy'
    · have hnotin : y ∉ bs := (List.nodup_cons.mp hnd).1
      have hfilter : bs.filter (fun z => decide (z ≤ y)) = bs.filter fun z => decide (z < y) := by
        apply List.filter_congr
        intro z hz
        have hzy : z ≠ y := by
          rintro rfl
          exact hnotin hz
        simp only [decide_eq_decide]
        omega
      rw [List.filter_cons, List.filter_cons, if_pos (by simp), if_neg (by simp), hfilter]
      simp only [List.map_cons, List.sum_cons]
      omega
    · have hb : b ≠ y := by
        rintro rfl
        exact (List.nodup_cons.mp hnd).1 hy'
      rw [List.filter_cons, List.filter_cons]
      by_cases hble : b ≤ y
      · have hblt : b < y := Nat.lt_of_le_of_ne hble hb
        rw [if_pos (by simpa using hble), if_pos (by simpa using hblt)]
        simp only [List.map_cons, List.sum_cons]
        rw [ih hnd' hy']
        omega
      · have hblt : ¬ b < y := fun h => hble (Nat.le_of_lt h)
        rw [if_neg (by simpa using hble), if_neg (by simpa using hblt)]
        exact ih hnd' hy'

theorem sorted_le_getLast :
    ∀ (ys : List Nat), List.Sorted (· ≤ ·) ys → ∀ hne : ys ≠ [],
      ∀ a ∈ ys, a ≤ ys.getLast hne := by
  intro ys
  induction ys with
  | nil =>
    intro _ hne
    exact absurd rfl hne
  | cons b bs ih =>
    intro h hne a ha
    cases bs with
    | nil =>
      rcases List.mem_cons.mp ha with rfl | h'
      · exact Nat.le_refl _
      · cases h'
    | cons c cs =>
      rw [List.getLast_cons (by simp)]
      rcases List.mem_cons.mp ha with rfl | h'
      · exact (List.sorted_cons.mp h).1 _ (List.getLast_mem _)
      · exact ih (List.sorted_cons.mp h).2 (by simp) a h'

/-! ### The cumulative fold: C1, C7, C2 -/

/-- C1: the cumulative fold walks the sorted group years; the total emitted
at a year is the sum over all earlier group years plus that year's own
count (inclusive prefix-sum); at the final year it equals the whole-table
per-rank total. -/
theorem C1_cumulative_inclusive_prefix_sum (t : List MedalRow) (m : String) (y : Nat)
    (hy : y ∈ sortedYears (load_and_prep_data t))
    (hne : sortedYears (load_and_prep_data t) ≠ []) :
    List.Sorted (· ≤ ·) (sortedYears (load_and_prep_data t))
    ∧ cumulativeCount (load_and_prep_data t) y m
        = (((sortedYears (load_and_prep_data t)).filter fun z => decide (z < y)).map
            fun z => medalCount (load_and_prep_data t) z m).sum
          + medalCount (load_and_prep_data t) y m
    ∧ cumulativeCount (load_and_prep_data t)
          ((sortedYears (load_and_prep_data t)).getLast hne) m
        = totalMedal (load_and_prep_data t) m := by
  refine ⟨sorted_sortedYears _, ?_, ?_⟩
  · unfold cumulativeCount
    exact sum_filter_le_eq _ y _ (nodup_sortedYears _) hy
  · unfold cumulativeCount
    have hfilter : ((sortedYears (load_and_prep_data t)).filter fun z =>
        decide (z ≤ (sortedYears (load_and_prep_data t)).getLast hne))
        = sortedYears (load_and_prep_data t) := by
      rw [List.filter_eq_self]
      intro a ha
      simpa using sorted_le_getLast _ (sorted_sortedYears _) hne a ha
    rw [hfilter]
    exact sum_medalCount_eq_totalMedal _ _ m (nodup_sortedYears _)
      fun r hr => mem_sortedYears _ r hr

theorem sum_map_filter_eq_sum_ite {α : Type} (l : List α) (p : α → Bool) (f : α → Nat) :
    ((l.filter p).map f).sum = (l.map fun x => if p x = true then f x else 0).sum := by
  induction l with
  | nil => rfl
  | cons a as ih =>
    rw [List.filter_cons]
    by_cases ha : p a = true
    · rw [if_pos ha, List.map_cons, List.sum_cons, List.map_cons, List.sum_cons, if_pos ha, ih]
    · rw [if_neg ha, List.map_cons, List.sum_cons, if_neg ha, ih, Nat.zero_add]

/-- Monotonicity of the cumulative count in the year bound. -/
theorem cumulativeCount_mono (t : List MedalRow) (m : String) (y y' : Nat)
    (h : y ≤ y') :
    cumulativeCount (load_and_prep_data t) y m
      ≤ cumulativeCount (load_and_prep_data t) y' m := by
  unfold cumulativeCount
  have hpoint : ∀ z : Nat,
      (if decide (z ≤ y) = true then medalCount (load_and_prep_data t) z m else 0)
        ≤ if decide (z ≤ y') = true then medalCount (load_and_prep_data t) z m else 0 := by
    intro z
    by_cases hz : z ≤ y
    · rw [if_pos (by simpa using hz), if_pos (by simpa using Nat.le_trans hz h)]
    · rw [if_neg (by simpa using hz)]
      exact Nat.zero_le _
  calc (((sortedYears (load_and_prep_data t)).filter fun z => decide (z ≤ y)).map
        fun z => medalCount (load_and_prep_data t) z m).sum
      = ((sortedYears (load_and_prep_data t)).map fun z =>
          if decide (z ≤ y) = true then medalCount (load_and_prep_data t) z m else 0).sum := by
        rw [sum_map_filter_eq_sum_ite]
    _ ≤ ((sortedYears (load_and_prep_data t)).map fun z =>
          if decide (z ≤ y') = true then medalCount (load_and_prep_data t) z m else 0).sum :=
        List.sum_le_sum fun z _ => hpoint z
    _ = (((sortedYears (load_and_prep_data t)).filter fun z => decide (z ≤ y')).map
          fun z => medalCount (load_and_prep_data t) z m).sum := by
        rw [sum_map_filter_eq_sum_ite]

/-- C7: for every input table and medal rank, the cumulative count is
monotone in the year bound, and in particular non-decreasing across
consecutive group years. -/
theorem C7_cumulative_monotone (t : List MedalRow) (m : String) (y y' : Nat)
    (h : y ≤ y') :
    (cumulativeCount (load_and_prep_data t) y m
      ≤ cumulativeCount (load_and_prep_data t) y' m)
    ∧ ∀ (i : Nat) (hi : i + 1 < (sortedYears (load_and_prep_data t)).length),
        cumulativeCount (load_and_prep_data t)
            ((sortedYears (load_and_prep_data t)).get ⟨i, Nat.lt_of_succ_lt hi⟩) m
          ≤ cumulativeCount (load_and_prep_data t)
            ((sortedYears (load_and_prep_data t)).get ⟨i + 1, hi⟩) m := by
  refine ⟨cumulativeCount_mono t m y y' h, ?_⟩
  intro i hi
  apply cumulativeCount_mono
  exact (sorted_sortedYears (load_and_prep_data t)).rel_get_of_lt
    (Fin.mk_lt_mk.mpr (Nat.lt_succ_self i))

/-- The reference-style dataset: one non-medal 2000 row, then the 28 medal
rows whose per-rank totals are 23 Gold, 3 Silver, 2 Bronze. -/
def phelpsRef : List MedalRow :=
  [⟨2000, "Men 200 Butterfly", "None", "1:56.50", ""⟩,
   ⟨2004, "Men 400 Medley", "Gold", "4:08.26", ""⟩,
   ⟨2004, "Men 100 Butterfly", "Gold", "51.25", ""⟩,
   ⟨2004, "Men 200 Butterfly", "Gold", "1:54.04", ""⟩,
   ⟨2004, "Men 200 Medley", "Gold", "1:57.14", ""⟩,
   ⟨2004, "Men 4x200 Freestyle Relay", "Gold", "7:07.33", ""⟩,
   ⟨2004, "Men 4x100 Medley Relay", "Gold", "3:30.68", ""⟩,
   ⟨2004, "Men 200 Freestyle", "Bronze", "1:45.32", ""⟩,
   ⟨2004, "Men 4x100 Freestyle Relay", "Bronze", "3:14.62", ""⟩,
   ⟨2008, "Men 400 Medley", "Gold", "4:03.84", ""⟩,
   ⟨2008, "Men 4x100 Freestyle Relay", "Gold", "3:08.24", ""⟩,
   ⟨2008, "Men 200 Freestyle", "Gold", "1:42.96", ""⟩,
   ⟨2008, "Men 200 Butterfly", "Gold", "1:52.03", ""⟩,
   ⟨2008, "Men 4x200 Freestyle Relay", "Gold", "6:58.56", ""⟩,
   ⟨2008, "Men 200 Medley", "Gold", "1:54.23", ""⟩,
   ⟨2008, "Men 100 Butterfly", "Gold", "50.58", ""⟩,
   ⟨2008, "Men 4x100 Medley Relay", "Gold", "3:29.34", ""⟩,
   ⟨2012, "Men 4x200 Freestyle Relay", "Gold", "6:59.70", ""⟩,
   ⟨2012, "Men 200 Medley", "Gold", "1:54.27", ""⟩,
   ⟨2012, "Men 100 Butterfly", "Gold", "51.21", ""⟩,
   ⟨2012, "Men 4x100 Medley Relay", "Gold", "3:29.35", ""⟩,
   ⟨2012, "Men 200 Butterfly", "Silver", "1:53.01", ""⟩,
   ⟨2012, "Men 4x100 Freestyle Relay", "Silver", "3:10.38", ""⟩,
   ⟨2016, "Men 4x100 Freestyle Relay", "Gold", "3:09.92", ""⟩,
   ⟨2016, "Men 200 Butterfly", "Gold", "1:53.36", ""⟩,
   ⟨2016, "Men 4x200 Freestyle Relay", "Gold", "7:00.66", ""⟩,
   ⟨2016, "Men 200 Medley", "Gold", "1:54.66", ""⟩,
   ⟨2016, "Men 4x100 Medley Relay", "Gold", "3:27.95", ""⟩,
   ⟨2016, "Men 100 Butterfly", "Silver", "51.14", ""⟩]

/-- Witness for C1: on the reference-style dataset, the final cumulative
totals equal the grand totals 23 Gold, 3 Silver, 2 Bronze. -/
theorem C1_witness :
    cumulativeCount (load_and_prep_data phelpsRef)
        ((sortedYears (load_and_prep_data phelpsRef)).getLast (by decide)) "Gold"
      = totalMedal (load_and_prep_data phelpsRef) "Gold"
    ∧ totalMedal (load_and_prep_data phelpsRef) "Gold" = 23
    ∧ totalMedal (load_and_prep_data phelpsRef) "Silver" = 3
    ∧ totalMedal (load_and_prep_data phelpsRef) "Bronze" = 2
    ∧ cumulativeFrames (load_and_prep_data phelpsRef)
        = [⟨2004, 6, 0, 2⟩, ⟨2008, 14, 0, 2⟩, ⟨2012, 18, 2, 2⟩, ⟨2016, 23, 3, 2⟩] := by
  refine ⟨(C1_cumulative_inclusive_prefix_sum phelpsRef "Gold" 2016
    (by decide) (by decide)).2.2, by decide, by decide, by decide, by decide⟩

/-- Witness for C7: on the reference-style dataset the Gold total never
drops between 2008 and 2012, nor between the first two group years. -/
theorem C7_witness :
    cumulativeCount (load_and_prep_data phelpsRef) 2008 "Gold"
      ≤ cumulativeCount (load_and_prep_data phelpsRef) 2012 "Gold"
    ∧ cumulativeCount (load_and_prep_data phelpsRef)
        ((sortedYears (load_and_prep_data phelpsRef)).get ⟨0, by decide⟩) "Gold"
      ≤ cumulativeCount (load_and_prep_data phelpsRef)
        ((sortedYears (load_and_prep_data phelpsRef)).get ⟨1, by decide⟩) "Gold" :=
  ⟨(C7_cumulative_monotone phelpsRef "Gold" 2008 2012 (by decide)).1,
   (C7_cumulative_monotone phelpsRef "Gold" 2008 2012 (by decide)).2 0 (by decide)⟩

/-- The counterexample table for C2: the athlete competed in 2000 but won
no medal that year. -/
def c2Table : List MedalRow :=
  [⟨2000, "Men 200 Butterfly", "None", "1:56.50", ""⟩,
   ⟨2004, "Men 100 Butterfly", "Gold", "51.25", ""⟩]

/-- Counterexample to C2 as stated: 2000 is a known Games year present in
the input, yet the aggregation output contains no entry (and no placeholder
row of any kind) for it — only 2004 appears. -/
theorem C2_counterexample :
    2000 ∈ knownGamesYears
    ∧ (⟨2000, "Men 200 Butterfly", "None", "1:56.50", ""⟩ : MedalRow) ∈ c2Table
    ∧ 2000 ∉ sortedYears (load_and_prep_data c2Table)
    ∧ (cumulativeFrames (load_and_prep_data c2Table)).map (fun fr => fr.Year) = [2004] := by
  decide

/-- C2 amended: the aggregation output contains exactly the years with at
least one medal-winning row; a known Games year in which no medal was won is
absent, with no zero/"None" placeholder inserted. -/
theorem C2_years_come_from_medal_rows (t : List MedalRow) (y : Nat) :
    y ∈ sortedYears (load_and_prep_data t)
      ↔ ∃ r ∈ t, r.Year = y ∧ validMedal r.Medal = true := by
  unfold sortedYears
  rw [(List.perm_insertionSort _ _).mem_iff, List.mem_dedup, List.mem_map]
  constructor
  · rintro ⟨pr, hpr, hy⟩
    obtain ⟨r, hrt, hr⟩ := List.mem_map.mp hpr
    obtain ⟨hrt', hvm⟩ := List.mem_filter.mp hrt
    cases hr
    exact ⟨r, hrt', hy, hvm⟩
  · rintro ⟨r, hrt, hy, hvm⟩
    exact ⟨⟨r.Year, r.Event, r.Medal, r.Time, r.Note, event_type r.Event⟩,
      List.mem_map.mpr ⟨r, List.mem_filter.mpr ⟨hrt, hvm⟩, rfl⟩, hy⟩

/-! ### C3: non-medal rows -/

/-- C3: a row whose medal is not a real rank contributes to no medal count
(the aggregation input is unchanged when all its copies are removed), yet it
still feeds the event time series when its time parses. -/
theorem C3_nonmedal_excluded_but_timed (t : List MedalRow) (r : MedalRow)
    (hr : r ∈ t) (hnm : validMedal r.Medal = false) :
    (∀ pr ∈ load_and_prep_data t, validMedal pr.Medal = true)
    ∧ load_and_prep_data t = load_and_prep_data (t.filter fun x => decide (x ≠ r))
    ∧ ∀ s : ℚ, parseTime r.Time = .ok s →
        (⟨r.Year, s, r.Time⟩ : TimePoint) ∈ eventTimeSeries t r.Event := by
  refine ⟨?_, ?_, ?_⟩
  · intro pr hpr
    obtain ⟨x, hx, hxe⟩ := List.mem_map.mp hpr
    cases hxe
    exact (List.mem_filter.mp hx).2
  · unfold load_and_prep_data
    rw [List.filter_filter]
    congr 1
    apply List.filter_congr
    intro a _
    by_cases hav : a = r
    · subst hav
      rw [hnm]
      rfl
    · simp [hav]
  · intro s hs
    unfold eventTimeSeries
    rw [(List.perm_insertionSort _ _).mem_iff]
    apply List.mem_filterMap.mpr
    refine ⟨r, List.mem_filter.mpr ⟨hr, by simp⟩, ?_⟩
    rw [hs]
    rfl

/-- Witness for C3 on the concrete table: the 2000 "None" row is gone from
the aggregation input but its time point is in the butterfly series. -/
theorem C3_witness :
    load_and_prep_data c2Table
        = load_and_prep_data (c2Table.filter fun x =>
            decide (x ≠ ⟨2000, "Men 200 Butterfly", "None", "1:56.50", ""⟩))
    ∧ (⟨2000, ((1 : Nat) : ℚ) * 60
          + (((56 : Nat) : ℚ) + ((50 : Nat) : ℚ) / (10 : ℚ) ^ (2 : Nat)),
        "1:56.50"⟩ : TimePoint)
        ∈ eventTimeSeries c2Table "Men 200 Butterfly" := by
  have h := C3_nonmedal_excluded_but_timed c2Table
    ⟨2000, "Men 200 Butterfly", "None", "1:56.50", ""⟩ (by decide) (by decide)
  exact ⟨h.2.1, h.2.2 _ rfl⟩

/-! ### C10: the src/data/app.py variant -/

theorem map_fst_succ_enumFrom {α : Type} (s : List α) :
    ∀ k : Nat, ((List.enumFrom k s).map fun p => p.1 + 1) = List.range' (k + 1) s.length := by
  induction s with
  | nil =>
    intro k
    rfl
  | cons a as ih =>
    intro k
    rw [List.enumFrom_cons, List.map_cons, List.length_cons, List.range'_succ, ih (k + 1)]

/-- C10: load_and_prep_data of src/data/app.py sorts ascending by Date and
gives the i-th row Medal_Count i (from 1), over every input row regardless
of its Medal field; the final count is the total number of input rows. -/
theorem C10_medal_count_numbers_all_rows (t : List RawRow2) :
    ((load_and_prep_data2 t).map fun r => r.Medal_Count) = List.range' 1 t.length
    ∧ (load_and_prep_data2 t).length = t.length
    ∧ List.Sorted dateLe ((load_and_prep_data2 t).map fun r => r.Date)
    ∧ ((load_and_prep_data2 t).map fun r => (⟨r.Date, r.Event, r.Medal⟩ : RawRow2)).Perm t := by
  unfold load_and_prep_data2
  have hslen : (List.insertionSort rowDateLe t).length = t.length :=
    (List.perm_insertionSort _ _).length_eq
  have hsorted : List.Sorted rowDateLe (List.insertionSort rowDateLe t) :=
    List.sorted_insertionSort _ _
  have hsnd : ((List.insertionSort rowDateLe t).enum.map fun p => p.2)
      = List.insertionSort rowDateLe t := List.enumFrom_map_snd 0 _
  refine ⟨?_, ?_, ?_, ?_⟩
  · rw [List.map_map]
    have he : ((fun r : PrepRow2 => r.Medal_Count) ∘ fun p : Nat × RawRow2 =>
        (⟨p.2.Date, p.2.Event, p.2.Medal, p.2.Date.y, p.1 + 1⟩ : PrepRow2))
        = fun p : Nat × RawRow2 => p.1 + 1 := rfl
    rw [he, show (List.insertionSort rowDateLe t).enum
        = List.enumFrom 0 (List.insertionSort rowDateLe t) from rfl,
      map_fst_succ_enumFrom _ 0, hslen]
  · rw [List.length_map, List.enum_length, hslen]
  · rw [List.map_map]
    have he : ((fun r : PrepRow2 => r.Date) ∘ fun p : Nat × RawRow2 =>
        (⟨p.2.Date, p.2.Event, p.2.Medal, p.2.Date.y, p.1 + 1⟩ : PrepRow2))
        = (fun r : RawRow2 => r.Date) ∘ fun p : Nat × RawRow2 => p.2 := rfl
    rw [he, ← List.map_map, hsnd]
    exact List.Pairwise.map _ (fun a b hab => hab) hsorted
  · rw [List.map_map]
    have he : ((fun r : PrepRow2 => (⟨r.Date, r.Event, r.Medal⟩ : RawRow2)) ∘
        fun p : Nat × RawRow2 =>
          (⟨p.2.Date, p.2.Event, p.2.Medal, p.2.Date.y, p.1 + 1⟩ : PrepRow2))
        = fun p : Nat × RawRow2 => p.2 := rfl
    rw [he, hsnd]
    exact List.perm_insertionSort _ _

/-! ### Error handling and determinism -/

/-- C8: a missing data source fails with the DataNotFound kind, distinct
from the parsing-failure kind; the caller shows the user-visible message and
renders nothing further from the pipeline, while a present source renders
the pipeline output. -/
theorem C8_data_not_found :
    loadData none = .error .DataNotFound
    ∧ mainRender none = .ok [.errorMsg fileMissingMsg]
    ∧ (∀ item ∈ [RenderItem.errorMsg fileMissingMsg], ∀ fr hist d,
        item ≠ .stackedChart fr ∧ item ≠ .histogram hist ∧ item ≠ .dataTable d)
    ∧ LoadError.DataNotFound ≠ LoadError.MalformedTime
    ∧ (∀ t, mainRender (some t) = .ok (renderPipeline t)) := by
  refine ⟨rfl, rfl, ?_, by decide, fun t => rfl⟩
  intro item hitem fr hist d
  rcases List.mem_singleton.mp hitem with rfl
  refine ⟨?_, ?_, ?_⟩ <;> intro h <;> cases h

/-- Witness for C8: the error item rendered for a missing source is not a
chart. -/
theorem C8_witness :
    mainRender none = .ok [.errorMsg fileMissingMsg]
    ∧ RenderItem.errorMsg fileMissingMsg ≠ .stackedChart [] :=
  ⟨C8_data_not_found.2.1,
    (C8_data_not_found.2.2.1 (.errorMsg fileMissingMsg) (by simp) [] (0, 0) []).1⟩

/-- C9: the whole pipeline is a pure, deterministic function of the input
table: two runs on equal inputs produce equal derived rows in equal order. -/
theorem C9_pipeline_deterministic (t₁ t₂ : List MedalRow) (ev₁ ev₂ : String)
    (h : t₁ = t₂) (hev : ev₁ = ev₂) :
    pipeline t₁ ev₁ = pipeline t₂ ev₂ := by
  subst h
  subst hev
  rfl

/-- Witness for C9 at a concrete table and event. -/
theorem C9_witness :
    pipeline c4Table "Men 200 Butterfly" = pipeline c4Table "Men 200 Butterfly" :=
  C9_pipeline_deterministic c4Table c4Table "Men 200 Butterfly" "Men 200 Butterfly" rfl rfl

end Phelps
